import Mathlib

/-!
Verification of the process-agent collector (cmd/process-agent/collector.go):
check scheduling, payload dispatch and the real-time controller.

Modelling conventions:
* Go `time.Duration` (int64 nanoseconds) is modelled as `Int`; the only
  arithmetic performed on durations in the source is `time.Duration(int32) *
  time.Second`, which cannot overflow int64, so plain `Int` is faithful.
* Go `int32` values are modelled as `Int`, with explicit wraparound (`wrap32`)
  at each operation the source performs on an int32 (`+`).
* External collaborators (the `checks` package, the forwarder, the payload
  encoder, the response decoder) are modelled as data passed in: a check run
  outcome is an `Except`, an encoder outcome is carried on the message, a
  forwarder response carries its decode outcome.
-/

/-- One second in nanoseconds, the unit of Go `time.Duration`. -/
def timeSecond : Int := 1000000000

/-- The fixed default real-time interval, `2 * time.Second` in the source. -/
def defaultRTInterval : Int := 2 * timeSecond

/-- Wraparound of Go `int32` arithmetic. -/
def wrap32 (x : Int) : Int := (x + 2 ^ 31) % 2 ^ 32 - 2 ^ 31

/-- `model.CollectorStatus`: a status record decoded from a backend response.
`activeClients` and `interval` are int32 in the protobuf definition. -/
structure CollectorStatus where
  activeClients : Int
  interval : Int
deriving Repr, DecidableEq

/-- The real-time state of the collector: the `realTimeEnabled` atomic flag and
the `realTimeInterval` duration field. -/
structure RTState where
  realTimeEnabled : Bool
  realTimeInterval : Int
deriving Repr, DecidableEq

/-- Log events emitted by `updateRTStatus`. -/
inductive LogEvent where
  | rtDisabled
  | rtEnabled (activeClients : Int)
  | intervalUpdated (interval : Int)
deriving Repr, DecidableEq

/-- Result of one `updateRTStatus` call: the new real-time state, the messages
sent on `rtIntervalCh` (in order), and the log lines emitted. -/
structure RTUpdateResult where
  state : RTState
  broadcasts : List Int
  logs : List LogEvent
deriving Repr, DecidableEq

/-- The `shouldEnableRT` accumulator of the loop in `updateRTStatus`:
`shouldEnableRT = shouldEnableRT || s.ActiveClients > 0`. -/
def shouldEnableRT (statuses : List CollectorStatus) : Bool :=
  statuses.foldl (fun b s => b || decide (0 < s.activeClients)) false

/-- The `activeClients` accumulator of the loop in `updateRTStatus`:
`if s.ActiveClients > 0 { activeClients += s.ActiveClients }` (int32 add). -/
def totalActiveClients (statuses : List CollectorStatus) : Int :=
  statuses.foldl (fun a s => if 0 < s.activeClients then wrap32 (a + s.activeClients) else a) 0

/-- The `maxInterval` accumulator of the loop in `updateRTStatus`:
`interval := time.Duration(s.Interval) * time.Second;
if interval > maxInterval { maxInterval = interval }`, starting from 0. -/
def maxStatusInterval (statuses : List CollectorStatus) : Int :=
  statuses.foldl (fun m s => if m < s.interval * timeSecond then s.interval * timeSecond else m) 0

/-- `Collector.updateRTStatus`. `nChecks` is `len(l.enabledChecks)`: the
interval, when it changes, is sent once per enabled check on the shared
`rtIntervalCh` channel. The single Go loop computes the three accumulators
`shouldEnableRT`, `activeClients` and `maxInterval`; they are modelled as three
folds over the same batch. -/
def updateRTStatus (nChecks : Nat) (st : RTState) (statuses : List CollectorStatus) :
    RTUpdateResult :=
  let curEnabled := st.realTimeEnabled
  let enableStep : Bool × List LogEvent :=
    if curEnabled && !shouldEnableRT statuses then
      (false, [LogEvent.rtDisabled])
    else if !curEnabled && shouldEnableRT statuses then
      (true, [LogEvent.rtEnabled (totalActiveClients statuses)])
    else
      (curEnabled, [])
  let maxInterval := maxStatusInterval statuses
  if maxInterval ≠ st.realTimeInterval then
    let newInterval := if maxInterval ≤ 0 then defaultRTInterval else maxInterval
    { state := { realTimeEnabled := enableStep.1, realTimeInterval := newInterval },
      broadcasts := List.replicate nChecks newInterval,
      logs := enableStep.2 ++ [LogEvent.intervalUpdated newInterval] }
  else
    { state := { realTimeEnabled := enableStep.1, realTimeInterval := st.realTimeInterval },
      broadcasts := [],
      logs := enableStep.2 }

/-- Following the claim wording for C2: the maximum of `intervalSeconds`
converted to a duration, over a (nonempty) batch of status records. -/
def specBatchMaxInterval (statuses : List CollectorStatus) : Int :=
  match statuses with
  | [] => 0
  | s :: rest => rest.foldl (fun m t => max m (t.interval * timeSecond)) (s.interval * timeSecond)

/-- Modelled from the spec: the external `checks` package (not under src/)
gives every check a distinct name; `checks.Process.Name()`. -/
def ProcessCheckName : String := "process"

/-- Modelled from the spec: `checks.Process.RealTimeName()`, the real-time
variant name of the process check. -/
def RTProcessCheckName : String := "rtprocess"

/-- Modelled from the spec: `checks.Container.Name()`. -/
def ContainerCheckName : String := "container"

/-- Modelled from the spec: `checks.RTContainer.Name()`. -/
def RTContainerCheckName : String := "rtcontainer"

/-- Modelled from the spec: `checks.Connections.Name()`. -/
def ConnectionsCheckName : String := "connections"

/-- Modelled from the spec: `checks.Pod.Name()` (`config.PodCheckName`), the
pod/orchestrator check. -/
def PodCheckName : String := "pod"

/-- Modelled from the spec: `checks.ProcessDiscovery.Name()`. -/
def ProcessDiscoveryCheckName : String := "process_discovery"

/-- Modelled from the spec: `checks.ProcessEvents.Name()`. -/
def ProcessEventsCheckName : String := "process_events"

/-- Modelled from the spec: `headers.ZSTDContentEncoding`, the content-encoding
marker distinguishing manifest payloads of the pod check. -/
def ZSTDContentEncoding : String := "zstd"

/-- `ignoreResponseBody`: checks whose responses carry no real-time status and
whose bodies are therefore never decoded. -/
def ignoreResponseBody (checkName : String) : Bool :=
  match checkName with
  | "pod" => true
  | "process_events" => true
  | _ => false

/-- Decode outcome of a response body (`model.DecodeMessage` is external; the
outcome is carried as data on the response). -/
inductive DecodedBody where
  | decodeErr
  | resCollector (message : String) (status : CollectorStatus)
  | otherType
deriving Repr, DecidableEq

/-- One `forwarder.Response` from one backend domain. -/
structure FwdResponse where
  hasErr : Bool
  statusCode : Int
  body : DecodedBody
deriving Repr, DecidableEq

/-- `readResponseStatuses`: collect the status records from the per-domain
responses of one submission, skipping transport errors, non-2xx statuses,
ignored bodies, decode failures, error messages and unexpected types. -/
def readResponseStatuses (checkName : String) (responses : List FwdResponse) :
    List CollectorStatus :=
  responses.foldl
    (fun statuses response =>
      if response.hasErr then statuses
      else if 300 ≤ response.statusCode then statuses
      else if ignoreResponseBody checkName then statuses
      else
        match response.body with
        | DecodedBody.decodeErr => statuses
        | DecodedBody.resCollector message status =>
          if 0 < message.length then statuses else statuses ++ [status]
        | DecodedBody.otherType => statuses)
    []

/-- `Collector.shouldDropPayload`: linear scan of the configured drop list. -/
def shouldDropPayload (dropCheckPayloads : List String) (check : String) : Bool :=
  dropCheckPayloads.any (fun d => decide (d = check))

/-- The named backend sinks of the forwarder (`fwd.Submit...` calls). -/
inductive SinkCall where
  | processChecks
  | rtProcessChecks
  | containerChecks
  | rtContainerChecks
  | connectionChecks
  | orchestratorManifests
  | orchestratorChecks
  | processDiscoveryChecks
  | processEventChecks
deriving Repr, DecidableEq

/-- One `checkPayload`: the encoded body plus the delivery headers. Of the
header map, only the content-encoding entry is consulted downstream (pod
routing); it is the one header modelled. -/
structure CheckPayloadM where
  body : String
  contentEncoding : String
deriving Repr, DecidableEq

/-- One `checkResult`: one queued item per check invocation. -/
structure CheckResultM where
  name : String
  payloads : List CheckPayloadM
  sizeInBytes : Int
deriving Repr, DecidableEq

/-- Outcome of dispatching one payload in `consumePayloads`: the real-time
state afterwards, the sink submissions performed, and the interval messages
sent on `rtIntervalCh`. -/
structure PayloadDispatch where
  state : RTState
  submissions : List SinkCall
  broadcasts : List Int
deriving Repr, DecidableEq

/-- The `switch result.name` of `consumePayloads`: the selected sink together
with the `updateRTStatus` flag (initialised to `l.runRealTime`, forced to
`false` for the pod, process-discovery and process-events checks). An
unrecognized name is an error (`none`). -/
def routePayload (runRealTime : Bool) (payload : CheckPayloadM) :
    String → Option (Bool × SinkCall)
  | "process" => some (runRealTime, SinkCall.processChecks)
  | "rtprocess" => some (runRealTime, SinkCall.rtProcessChecks)
  | "container" => some (runRealTime, SinkCall.containerChecks)
  | "rtcontainer" => some (runRealTime, SinkCall.rtContainerChecks)
  | "connections" => some (runRealTime, SinkCall.connectionChecks)
  | "pod" =>
    some (false,
      if payload.contentEncoding = ZSTDContentEncoding then SinkCall.orchestratorManifests
      else SinkCall.orchestratorChecks)
  | "process_discovery" => some (false, SinkCall.processDiscoveryChecks)
  | "process_events" => some (false, SinkCall.processEventChecks)
  | _ => none

/-- The per-payload body of the loop in `consumePayloads`. `fwd` models the
external forwarder: the submission either fails (error logged, payload
skipped) or yields the per-domain responses. -/
def processPayload (runRealTime : Bool) (dropCheckPayloads : List String) (nChecks : Nat)
    (fwd : SinkCall → CheckPayloadM → Except Unit (List FwdResponse))
    (resultName : String) (payload : CheckPayloadM) (st : RTState) : PayloadDispatch :=
  if shouldDropPayload dropCheckPayloads resultName then
    { state := st, submissions := [], broadcasts := [] }
  else
    match routePayload runRealTime payload resultName with
    | none => { state := st, submissions := [], broadcasts := [] }
    | some (updRT, sink) =>
      match fwd sink payload with
      | Except.error _ => { state := st, submissions := [sink], broadcasts := [] }
      | Except.ok responses =>
        let statuses := readResponseStatuses resultName responses
        if 0 < statuses.length ∧ updRT = true then
          let r := updateRTStatus nChecks st statuses
          { state := r.state, submissions := [sink], broadcasts := r.broadcasts }
        else
          { state := st, submissions := [sink], broadcasts := [] }

/-- Dispatching one drained `checkResult`: the payload loop of
`consumePayloads`, threading the real-time state and collecting the
submissions. -/
def consumeResult (runRealTime : Bool) (dropCheckPayloads : List String) (nChecks : Nat)
    (fwd : SinkCall → CheckPayloadM → Except Unit (List FwdResponse))
    (result : CheckResultM) (st : RTState) : RTState × List SinkCall :=
  result.payloads.foldl
    (fun acc p =>
      let d := processPayload runRealTime dropCheckPayloads nChecks fwd result.name p acc.1
      (d.state, acc.2 ++ d.submissions))
    (st, [])

/-- Go semantics of the single shared `rtIntervalCh` channel: each message sent
is received by exactly one of the scheduler goroutines, chosen arbitrarily. A
delivery lists, in send order, which scheduler performed each receive; it is
valid when it accounts for exactly the messages sent. -/
def validDelivery (broadcasts : List Int) (delivery : List Nat) : Bool :=
  decide (delivery.length = broadcasts.length)

/-- How many of the broadcast messages a given scheduler received under a
delivery. -/
def updatesReceived (delivery : List Nat) (scheduler : Nat) : Nat :=
  delivery.count scheduler

/-- One `model.MessageBody` produced by a check run. Encoding
(`api.EncodePayload`) is external; its outcome is carried as data
(`encodesTo = none` models an encoding failure). `isCollectorManifest` is the
type test `m.(type) == *model.CollectorManifest` that selects the zstd
content-encoding header. -/
structure MsgBody where
  content : String
  encodesTo : Option String
  isCollectorManifest : Bool
deriving Repr, DecidableEq

/-- The per-message body of the loop in `messagesToResults`: encode the message
and build its payload headers (only the content-encoding entry is modelled;
see `CheckPayloadM`). -/
def encodeMessage (orchestrationEnabled : Bool) (m : MsgBody) : Option CheckPayloadM :=
  match m.encodesTo with
  | none => none
  | some body =>
    some { body := body,
           contentEncoding :=
             if orchestrationEnabled && m.isCollectorManifest then ZSTDContentEncoding else "" }

/-- `Collector.messagesToResults`: returns the `checkResult` added to the
queue, or `none` when the message list is empty (early return, no `Add`). -/
def messagesToResults (orchestrationEnabled : Bool) (name : String) (messages : List MsgBody) :
    Option CheckResultM :=
  if messages.length = 0 then none
  else
    let payloads := messages.filterMap (encodeMessage orchestrationEnabled)
    some { name := name,
           payloads := payloads,
           sizeInBytes := (payloads.map (fun p => (p.body.length : Int))).sum }

/-- `handlePodChecks`: queue the first half of the messages, and the second
half as a further result only when manifest collection is enabled. Returns the
results added to the pod queue, in order. -/
def handlePodChecks (manifestEnabled orchestrationEnabled : Bool) (name : String)
    (messages : List MsgBody) : List CheckResultM :=
  (messagesToResults orchestrationEnabled name (messages.take (messages.length / 2))).toList ++
    (if manifestEnabled then
      (messagesToResults orchestrationEnabled name
        (messages.drop (messages.length / 2))).toList
    else [])

/-- A check as seen by the collector: `Name()`, `RealTimeName()`, `RealTime()`
and `ShouldSaveLastRun()` of the external check interface. -/
structure CheckM where
  name : String
  rtName : String
  realTime : Bool
  shouldSaveLastRun : Bool
deriving Repr, DecidableEq

/-- `Collector.nextRunCounter`: load the per-name counter from the
`runCounters` map (modelled as an association list where `Store` prepends),
add one (int32 arithmetic), store and return it. -/
def nextRunCounter (counters : List (String × Int)) (name : String) :
    Int × List (String × Int) :=
  let runCounter : Int :=
    match counters.lookup name with
    | some rc => wrap32 (rc + 1)
    | none => 1
  (runCounter, (name, runCounter) :: counters)

/-- The three log messages of `logCheckDuration`. -/
inductive DurationLogMsg where
  | earlyRun
  | fifthRun
  | everyTwentieth
deriving Repr, DecidableEq

/-- `logCheckDuration`: the switch on the run counter deciding whether (and
which) check-duration line is logged. Go `%` is truncated remainder
(`Int.tmod`). -/
def logCheckDuration (runCounter : Int) : Option DurationLogMsg :=
  if runCounter < 5 then some DurationLogMsg.earlyRun
  else if runCounter = 5 then some DurationLogMsg.fifthRun
  else if runCounter.tmod 20 = 0 then some DurationLogMsg.everyTwentieth
  else none

/-- The `runCounters` map after `n` runs of the check `name` (starting from the
empty map). -/
def runCountersAfter (name : String) : Nat → List (String × Int)
  | 0 => []
  | k + 1 => (nextRunCounter (runCountersAfter name k) name).2

/-- The counter value returned on the `n`-th run of the check `name`. -/
def nthRunCounter (name : String) (n : Nat) : Int :=
  match n with
  | 0 => 0
  | k + 1 => (nextRunCounter (runCountersAfter name k) name).1

/-- Observable effects of one `Collector.runCheck` invocation: results added to
the check's queue, `StoreCheckOutput` calls (`none` models storing nil),
duration log lines, and the run-counter map afterwards. -/
structure RunCheckEffects where
  queueAdds : List CheckResultM
  stores : List (String × Option (List MsgBody))
  durationLogs : List DurationLogMsg
  runCounters : List (String × Int)
deriving Repr, DecidableEq

/-- `Collector.runCheck`. The counter is advanced before the run; on a run
error the function logs and returns with no queueing, no store and no duration
log. -/
def runCheck (manifestEnabled orchestrationEnabled : Bool) (counters : List (String × Int))
    (c : CheckM) (runOutcome : Except Unit (List MsgBody)) : RunCheckEffects :=
  let step := nextRunCounter counters c.name
  match runOutcome with
  | Except.error _ =>
    { queueAdds := [], stores := [], durationLogs := [], runCounters := step.2 }
  | Except.ok messages =>
    let stores := [(c.name, if c.shouldSaveLastRun then some messages else none)]
    let queueAdds :=
      if c.name = PodCheckName then
        handlePodChecks manifestEnabled orchestrationEnabled c.name messages
      else
        (messagesToResults orchestrationEnabled c.name messages).toList
    let durationLogs := if !c.realTime then (logCheckDuration step.1).toList else []
    { queueAdds := queueAdds, stores := stores, durationLogs := durationLogs,
      runCounters := step.2 }

/-- `checks.RunOptions` for a dual-mode invocation. -/
structure RunOptions where
  runStandard : Bool
  runRealTime : Bool
deriving Repr, DecidableEq

/-- The two halves returned by `RunWithOptions` in one pass. -/
structure CheckRunResult where
  standard : List MsgBody
  realTime : List MsgBody
deriving Repr, DecidableEq

/-- Observable effects of one `Collector.runCheckWithRealTime` invocation:
additions to the standard and real-time queues, `StoreCheckOutput` calls,
the names whose run counter was advanced, duration logs and the counter map
afterwards. -/
structure RunRTCheckEffects where
  queueAdds : List CheckResultM
  rtQueueAdds : List CheckResultM
  stores : List (String × List MsgBody)
  counterUpdatedFor : List String
  durationLogs : List DurationLogMsg
  runCounters : List (String × Int)
deriving Repr, DecidableEq

/-- `Collector.runCheckWithRealTime`: route the standard half to `results` and
the real-time half to `rtResults`; advance the run counter and log the
duration only under `options.RunStandard`; `StoreCheckOutput` is called for
the standard half under `options.RunStandard` and for the real-time half
(under its real-time name) under `options.RunRealTime`. -/
def runCheckWithRealTime (orchestrationEnabled : Bool) (counters : List (String × Int))
    (c : CheckM) (options : RunOptions) (runOutcome : Except Unit CheckRunResult) :
    RunRTCheckEffects :=
  match runOutcome with
  | Except.error _ =>
    { queueAdds := [], rtQueueAdds := [], stores := [], counterUpdatedFor := [],
      durationLogs := [], runCounters := counters }
  | Except.ok run =>
    let queueAdds := (messagesToResults orchestrationEnabled c.name run.standard).toList
    let standardPart :
        List (String × List MsgBody) × List String × List DurationLogMsg ×
          List (String × Int) :=
      if options.runStandard then
        let step := nextRunCounter counters c.name
        ([(c.name, run.standard)], [c.name], (logCheckDuration step.1).toList, step.2)
      else ([], [], [], counters)
    let rtQueueAdds := (messagesToResults orchestrationEnabled c.rtName run.realTime).toList
    let rtStores := if options.runRealTime then [(c.rtName, run.realTime)] else []
    { queueAdds := queueAdds, rtQueueAdds := rtQueueAdds,
      stores := standardPart.1 ++ rtStores,
      counterUpdatedFor := standardPart.2.1,
      durationLogs := standardPart.2.2.1,
      runCounters := standardPart.2.2.2 }

/-- Events a `basicRunner` loop can observe: a ticker fire (together with the
value the loop reads from the real-time enabled flag at that moment), an
interval-update message from `rtIntervalCh`, a value received on the exit
channel (the loop keeps going), and the exit channel closing (the loop
returns). -/
inductive SchedEvent where
  | tick (rtEnabled : Bool)
  | intervalUpdate (d : Int)
  | exitValue
  | exitClosed
deriving Repr, DecidableEq

/-- A check run performed by a scheduler loop: the one-off priming run or a
timer-driven run. -/
inductive RunKind where
  | priming
  | ticked
deriving Repr, DecidableEq

/-- The tick-time decision of `basicRunner`:
`realTimeEnabled := l.runRealTime && l.realTimeEnabled.Load();
if !c.RealTime() || realTimeEnabled`. -/
def tickShouldRun (runRealTime : Bool) (c : CheckM) (rtEnabled : Bool) : Bool :=
  !c.realTime || (runRealTime && rtEnabled)

/-- The `for`/`select` loop of `basicRunner` as a trace of runs over the
observed events. An interval update only replaces the ticker (for real-time
checks) and performs no run; a received exit value keeps the loop alive; a
closed exit channel ends it. -/
def runnerLoop (runRealTime : Bool) (c : CheckM) : List SchedEvent → List RunKind
  | [] => []
  | SchedEvent.tick rtEnabled :: rest =>
    (if tickShouldRun runRealTime c rtEnabled then [RunKind.ticked] else []) ++
      runnerLoop runRealTime c rest
  | SchedEvent.intervalUpdate _ :: rest => runnerLoop runRealTime c rest
  | SchedEvent.exitValue :: rest => runnerLoop runRealTime c rest
  | SchedEvent.exitClosed :: _ => []

/-- `basicRunner`: the priming run (performed unless the check is a real-time
check) followed by the loop. -/
def basicRunnerTrace (runRealTime : Bool) (c : CheckM) (events : List SchedEvent) :
    List RunKind :=
  (if !c.realTime then [RunKind.priming] else []) ++ runnerLoop runRealTime c events

/-- Whether an observed event makes `basicRunner` run its check. -/
def eventRuns (runRealTime : Bool) (c : CheckM) : SchedEvent → Bool
  | SchedEvent.tick rtEnabled => tickShouldRun runRealTime c rtEnabled
  | _ => false

theorem shouldEnableRT_eq_any (statuses : List CollectorStatus) :
    shouldEnableRT statuses = statuses.any (fun s => decide (0 < s.activeClients)) := by
  have key : ∀ (l : List CollectorStatus) (b : Bool),
      l.foldl (fun b s => b || decide (0 < s.activeClients)) b
        = (b || l.any (fun s => decide (0 < s.activeClients))) := by
    intro l
    induction l with
    | nil => intro b; simp
    | cons x xs ih =>
      intro b
      simp only [List.foldl_cons, List.any_cons, ih, Bool.or_assoc]
  simpa using key statuses false

theorem updateRTStatus_state_enabled (n : Nat) (st : RTState) (statuses : List CollectorStatus) :
    (updateRTStatus n st statuses).state.realTimeEnabled = shouldEnableRT statuses := by
  unfold updateRTStatus
  cases hc : st.realTimeEnabled <;> cases hs : shouldEnableRT statuses <;>
    simp only [hc, hs, Bool.and_self, Bool.not_false, Bool.not_true, Bool.and_false,
      Bool.and_true, Bool.true_and, Bool.false_and, if_true, if_false] <;>
    split <;> rfl

/-- C1: for every batch of status records passed to `updateRTStatus`, after the
call the real-time enabled flag is true iff at least one record in the batch
has `activeClients > 0`, and is false iff every record has `activeClients == 0`
(status records report client counts, hence are nonnegative). -/
theorem c1_updateRTStatus_enabled_iff (n : Nat) (st : RTState) (statuses : List CollectorStatus)
    (h : ∀ s ∈ statuses, 0 ≤ s.activeClients) :
    ((updateRTStatus n st statuses).state.realTimeEnabled = true ↔
      ∃ s ∈ statuses, 0 < s.activeClients) ∧
    ((updateRTStatus n st statuses).state.realTimeEnabled = false ↔
      ∀ s ∈ statuses, s.activeClients = 0) := by
  rw [updateRTStatus_state_enabled, shouldEnableRT_eq_any]
  constructor
  · simp only [List.any_eq_true, decide_eq_true_eq]
  · rw [← Bool.not_eq_true, List.any_eq_true]
    simp only [decide_eq_true_eq, not_exists, not_and, not_lt]
    constructor
    · intro h1 s hs
      exact le_antisymm (h1 s hs) (h s hs)
    · intro h1 s hs
      simp [h1 s hs]

/-- Witness for C1 at the spec scenario batch: two domains reporting
`{activeClients:0, interval:5}` and `{activeClients:3, interval:10}`. -/
theorem c1_witness :
    (∀ s ∈ [CollectorStatus.mk 0 5, CollectorStatus.mk 3 10], 0 ≤ s.activeClients) ∧
    (((updateRTStatus 2 ⟨false, defaultRTInterval⟩
        [CollectorStatus.mk 0 5, CollectorStatus.mk 3 10]).state.realTimeEnabled = true ↔
      ∃ s ∈ [CollectorStatus.mk 0 5, CollectorStatus.mk 3 10], 0 < s.activeClients) ∧
     ((updateRTStatus 2 ⟨false, defaultRTInterval⟩
        [CollectorStatus.mk 0 5, CollectorStatus.mk 3 10]).state.realTimeEnabled = false ↔
      ∀ s ∈ [CollectorStatus.mk 0 5, CollectorStatus.mk 3 10], s.activeClients = 0)) :=
  ⟨by decide, c1_updateRTStatus_enabled_iff 2 ⟨false, defaultRTInterval⟩
    [CollectorStatus.mk 0 5, CollectorStatus.mk 3 10] (by decide)⟩

theorem updateRTStatus_state_interval (n : Nat) (st : RTState) (statuses : List CollectorStatus) :
    (updateRTStatus n st statuses).state.realTimeInterval =
      if maxStatusInterval statuses ≠ st.realTimeInterval then
        (if maxStatusInterval statuses ≤ 0 then defaultRTInterval else maxStatusInterval statuses)
      else st.realTimeInterval := by
  rcases em (maxStatusInterval statuses ≠ st.realTimeInterval) with h | h
  · simp only [updateRTStatus, if_pos h]
  · simp only [updateRTStatus, if_neg h]

theorem updateRTStatus_broadcasts (n : Nat) (st : RTState) (statuses : List CollectorStatus) :
    (updateRTStatus n st statuses).broadcasts =
      if maxStatusInterval statuses ≠ st.realTimeInterval then
        List.replicate n
          (if maxStatusInterval statuses ≤ 0 then defaultRTInterval else maxStatusInterval statuses)
      else [] := by
  rcases em (maxStatusInterval statuses ≠ st.realTimeInterval) with h | h
  · simp only [updateRTStatus, if_pos h]
  · simp only [updateRTStatus, if_neg h]

theorem ite_lt_eq_max (m v : Int) : (if m < v then v else m) = max m v := by
  rcases le_or_lt v m with h | h
  · rw [if_neg (not_lt.mpr h), max_eq_left h]
  · rw [if_pos h, max_eq_right h.le]

theorem foldl_max_interval_out (l : List CollectorStatus) :
    ∀ a b : Int,
      l.foldl (fun m s => max m (s.interval * timeSecond)) (max a b) =
        max a (l.foldl (fun m s => max m (s.interval * timeSecond)) b) := by
  induction l with
  | nil => intro a b; rfl
  | cons x xs ih =>
    intro a b
    simp only [List.foldl_cons, max_assoc, ih]

theorem maxStatusInterval_eq_max_zero (s : CollectorStatus) (rest : List CollectorStatus) :
    maxStatusInterval (s :: rest) = max 0 (specBatchMaxInterval (s :: rest)) := by
  have hmax : maxStatusInterval (s :: rest) =
      (s :: rest).foldl (fun m t => max m (t.interval * timeSecond)) 0 := by
    simp only [maxStatusInterval, ite_lt_eq_max]
  rw [hmax]
  simp only [List.foldl_cons]
  rw [foldl_max_interval_out rest 0 (s.interval * timeSecond)]
  rfl

/-- C2: for a nonempty batch, and a currently positive stored interval, the new
stored interval equals the maximum requested interval over the batch when that
maximum is positive, and the fixed 2-second default otherwise; moreover the
interval branch (observable through the broadcast on `rtIntervalCh`) is taken
only when that maximum differs from the currently stored interval. -/
theorem c2_updateRTStatus_interval (n : Nat) (st : RTState) (statuses : List CollectorStatus)
    (h1 : 0 < st.realTimeInterval) (h2 : statuses ≠ []) :
    ((updateRTStatus n st statuses).state.realTimeInterval =
      if 0 < specBatchMaxInterval statuses then specBatchMaxInterval statuses
      else defaultRTInterval) ∧
    ((updateRTStatus n st statuses).broadcasts ≠ [] →
      specBatchMaxInterval statuses ≠ st.realTimeInterval) := by
  obtain ⟨s, rest, rfl⟩ := List.exists_cons_of_ne_nil h2
  rw [updateRTStatus_state_interval, updateRTStatus_broadcasts, maxStatusInterval_eq_max_zero]
  rcases le_or_lt (specBatchMaxInterval (s :: rest)) 0 with hT | hT
  · rw [max_eq_left hT]
    have hne : (0 : Int) ≠ st.realTimeInterval := by omega
    rw [if_pos hne, if_pos le_rfl, if_neg (not_lt.mpr hT)]
    exact ⟨rfl, fun _ => by omega⟩
  · rw [max_eq_right hT.le, if_pos hT]
    by_cases hne : specBatchMaxInterval (s :: rest) ≠ st.realTimeInterval
    · rw [if_pos hne, if_pos hne, if_neg (not_le.mpr hT)]
      exact ⟨rfl, fun _ => hne⟩
    · rw [if_neg hne, if_neg hne]
      push_neg at hne
      exact ⟨hne.symm, fun hc => absurd rfl hc⟩

/-- Witness for C2 at the spec scenario batch: stored interval 2s, batch
`[{0,5},{3,10}]`, so the new interval is 10s and a broadcast happens. -/
theorem c2_witness :
    (0 < (RTState.mk false defaultRTInterval).realTimeInterval ∧
      [CollectorStatus.mk 0 5, CollectorStatus.mk 3 10] ≠ []) ∧
    (((updateRTStatus 2 ⟨false, defaultRTInterval⟩
        [CollectorStatus.mk 0 5, CollectorStatus.mk 3 10]).state.realTimeInterval =
      if 0 < specBatchMaxInterval [CollectorStatus.mk 0 5, CollectorStatus.mk 3 10] then
        specBatchMaxInterval [CollectorStatus.mk 0 5, CollectorStatus.mk 3 10]
      else defaultRTInterval) ∧
     ((updateRTStatus 2 ⟨false, defaultRTInterval⟩
        [CollectorStatus.mk 0 5, CollectorStatus.mk 3 10]).broadcasts ≠ [] →
      specBatchMaxInterval [CollectorStatus.mk 0 5, CollectorStatus.mk 3 10] ≠
        (RTState.mk false defaultRTInterval).realTimeInterval)) :=
  ⟨⟨by decide, by decide⟩,
    c2_updateRTStatus_interval 2 ⟨false, defaultRTInterval⟩
      [CollectorStatus.mk 0 5, CollectorStatus.mk 3 10] (by decide) (by decide)⟩

theorem processPayload_no_rt_update (runRT : Bool) (dropList : List String) (nChecks : Nat)
    (fwd : SinkCall → CheckPayloadM → Except Unit (List FwdResponse))
    (name : String) (payload : CheckPayloadM) (st : RTState)
    (h : ∀ pr : Bool × SinkCall, routePayload runRT payload name = some pr → pr.1 = false) :
    (processPayload runRT dropList nChecks fwd name payload st).state = st ∧
    (processPayload runRT dropList nChecks fwd name payload st).broadcasts = [] := by
  unfold processPayload
  by_cases hd : shouldDropPayload dropList name
  · simp [hd]
  · simp only [hd, Bool.false_eq_true, if_false]
    cases hr : routePayload runRT payload name with
    | none => simp
    | some pr =>
      obtain ⟨b, sink⟩ := pr
      have hb : b = false := h (b, sink) hr
      subst hb
      cases hf : fwd sink payload with
      | error e => simp [hf]
      | ok responses => simp [hf]

/-- C4: a payload drained by a dispatcher whose check name is the
pod/orchestrator check, the process-discovery check or the process-events
check leaves the real-time state unchanged (and sends no interval broadcast),
regardless of the backend response content. -/
theorem c4_non_rt_checks_preserve_rt_state (runRT : Bool) (dropList : List String)
    (nChecks : Nat) (fwd : SinkCall → CheckPayloadM → Except Unit (List FwdResponse))
    (name : String) (payload : CheckPayloadM) (st : RTState)
    (h : name = PodCheckName ∨ name = ProcessDiscoveryCheckName ∨
      name = ProcessEventsCheckName) :
    (processPayload runRT dropList nChecks fwd name payload st).state = st ∧
    (processPayload runRT dropList nChecks fwd name payload st).broadcasts = [] := by
  rcases h with rfl | rfl | rfl
  · apply processPayload_no_rt_update
    intro pr hr
    have hroute : routePayload runRT payload PodCheckName =
        some (false,
          if payload.contentEncoding = ZSTDContentEncoding then SinkCall.orchestratorManifests
          else SinkCall.orchestratorChecks) := rfl
    rw [hroute] at hr
    cases hr
    rfl
  · apply processPayload_no_rt_update
    intro pr hr
    have hroute : routePayload runRT payload ProcessDiscoveryCheckName =
        some (false, SinkCall.processDiscoveryChecks) := rfl
    rw [hroute] at hr
    cases hr
    rfl
  · apply processPayload_no_rt_update
    intro pr hr
    have hroute : routePayload runRT payload ProcessEventsCheckName =
        some (false, SinkCall.processEventChecks) := rfl
    rw [hroute] at hr
    cases hr
    rfl

/-- Witness for C4: a pod-check payload whose submission yields a response
record with three active clients still leaves real-time mode untouched. -/
theorem c4_witness :
    (PodCheckName = PodCheckName ∨ PodCheckName = ProcessDiscoveryCheckName ∨
      PodCheckName = ProcessEventsCheckName) ∧
    ((processPayload true [] 2
        (fun _ _ => Except.ok [FwdResponse.mk false 200
          (DecodedBody.resCollector "" (CollectorStatus.mk 3 10))])
        PodCheckName (CheckPayloadM.mk "b" "") ⟨false, defaultRTInterval⟩).state =
      RTState.mk false defaultRTInterval ∧
     (processPayload true [] 2
        (fun _ _ => Except.ok [FwdResponse.mk false 200
          (DecodedBody.resCollector "" (CollectorStatus.mk 3 10))])
        PodCheckName (CheckPayloadM.mk "b" "") ⟨false, defaultRTInterval⟩).broadcasts = []) :=
  ⟨Or.inl rfl,
    c4_non_rt_checks_preserve_rt_state true [] 2
      (fun _ _ => Except.ok [FwdResponse.mk false 200
        (DecodedBody.resCollector "" (CollectorStatus.mk 3 10))])
      PodCheckName (CheckPayloadM.mk "b" "") ⟨false, defaultRTInterval⟩ (Or.inl rfl)⟩

theorem consumeResult_dropped (runRT : Bool) (dropList : List String) (nChecks : Nat)
    (fwd : SinkCall → CheckPayloadM → Except Unit (List FwdResponse))
    (name : String) (hdrop : shouldDropPayload dropList name = true) :
    ∀ (ps : List CheckPayloadM) (st : RTState) (acc : List SinkCall),
      ps.foldl
        (fun acc p =>
          let d := processPayload runRT dropList nChecks fwd name p acc.1
          (d.state, acc.2 ++ d.submissions))
        (st, acc) = (st, acc) := by
  intro ps
  induction ps with
  | nil => intro st acc; rfl
  | cons p rest ih =>
    intro st acc
    have hstep : processPayload runRT dropList nChecks fwd name p st =
        { state := st, submissions := [], broadcasts := [] } := by
      unfold processPayload
      rw [if_pos hdrop]
    simp only [List.foldl_cons, hstep, List.append_nil]
    exact ih st acc

/-- C5: a check result whose name is in the configured drop list yields no
submission to any backend sink when consumed by a dispatcher — even though the
producer side still queues a result for every nonempty message list (the drop
list is never consulted there). -/
theorem c5_drop_list_never_submits (runRT : Bool) (dropList : List String) (nChecks : Nat)
    (fwd : SinkCall → CheckPayloadM → Except Unit (List FwdResponse))
    (result : CheckResultM) (st : RTState) (orchestrationEnabled : Bool)
    (messages : List MsgBody) (h : result.name ∈ dropList) :
    (consumeResult runRT dropList nChecks fwd result st).2 = [] ∧
    (messages ≠ [] →
      messagesToResults orchestrationEnabled result.name messages ≠ none) := by
  constructor
  · have hdrop : shouldDropPayload dropList result.name = true := by
      unfold shouldDropPayload
      rw [List.any_eq_true]
      exact ⟨result.name, h, by simp⟩
    unfold consumeResult
    rw [consumeResult_dropped runRT dropList nChecks fwd result.name hdrop]
  · intro hm
    unfold messagesToResults
    rw [if_neg (fun hlen => hm (List.length_eq_zero.mp hlen))]
    simp

/-- Witness for C5: the process check on the drop list, one payload pending,
one response offering real-time: nothing is submitted, yet `messagesToResults`
still queues a result for a one-message run. -/
theorem c5_witness :
    (ProcessCheckName ∈ [ProcessCheckName]) ∧
    ((consumeResult true [ProcessCheckName] 2
        (fun _ _ => Except.ok [FwdResponse.mk false 200
          (DecodedBody.resCollector "" (CollectorStatus.mk 3 10))])
        (CheckResultM.mk ProcessCheckName [CheckPayloadM.mk "b" ""] 1)
        ⟨false, defaultRTInterval⟩).2 = [] ∧
     ([MsgBody.mk "m" (some "m") false] ≠ [] →
      messagesToResults false ProcessCheckName [MsgBody.mk "m" (some "m") false] ≠ none)) :=
  ⟨List.mem_singleton.mpr rfl,
    c5_drop_list_never_submits true [ProcessCheckName] 2
      (fun _ _ => Except.ok [FwdResponse.mk false 200
        (DecodedBody.resCollector "" (CollectorStatus.mk 3 10))])
      (CheckResultM.mk ProcessCheckName [CheckPayloadM.mk "b" ""] 1)
      ⟨false, defaultRTInterval⟩ false [MsgBody.mk "m" (some "m") false]
      (List.mem_singleton.mpr rfl)⟩

/-- C3 (failing input): with two enabled checks sharing the one `rtIntervalCh`
channel and an interval change from 2s to 10s, `updateRTStatus` sends exactly
two messages; Go delivers each message on a shared channel to exactly one
(arbitrary) receiver, so the delivery in which the first scheduler performs
both receives is valid — the first scheduler gets two updates and the second
gets none, contradicting the claimed exactly-one-update-per-scheduler
broadcast (and the code's own comment). -/
theorem c3_shared_channel_not_a_broadcast :
    (updateRTStatus 2 ⟨false, defaultRTInterval⟩
      [CollectorStatus.mk 3 10]).broadcasts.length = 2 ∧
    validDelivery (updateRTStatus 2 ⟨false, defaultRTInterval⟩
      [CollectorStatus.mk 3 10]).broadcasts [0, 0] = true ∧
    updatesReceived [0, 0] 0 = 2 ∧
    updatesReceived [0, 0] 1 = 0 := by
  decide

/-- C6 (counterexample): a successful dual-mode run with both halves requested
persists a "last output" entry for the real-time half as well (under the
real-time name) — the claim that last-output bookkeeping is updated only for
the standard half, never for the real-time half, is false on the code. -/
theorem c6_counterexample_rt_store :
    (runCheckWithRealTime false []
      (CheckM.mk "process" "rtprocess" false true)
      (RunOptions.mk true true)
      (Except.ok (CheckRunResult.mk [MsgBody.mk "s" (some "s") false]
        [MsgBody.mk "r" (some "r") false]))).stores =
    [("process", [MsgBody.mk "s" (some "s") false]),
     ("rtprocess", [MsgBody.mk "r" (some "r") false])] := by
  rfl

theorem messagesToResults_name_all (oe : Bool) (n : String) (msgs : List MsgBody) :
    (messagesToResults oe n msgs).toList.all (fun r => decide (r.name = n)) = true := by
  unfold messagesToResults
  by_cases h : msgs.length = 0
  · rw [if_pos h]
    rfl
  · rw [if_neg h]
    simp

/-- C6 (amended): in a successful dual-mode invocation the standard half is
routed to the standard queue and the real-time half to the real-time queue
(each result named after its half); the run counter is advanced only for the
standard half; the last-output bookkeeping is persisted for the standard half
under `options.RunStandard` and, additionally, for the real-time half under
its real-time name under `options.RunRealTime`. -/
theorem c6_amended_dual_run (oe : Bool) (counters : List (String × Int)) (c : CheckM)
    (options : RunOptions) (run : CheckRunResult) :
    ((runCheckWithRealTime oe counters c options (Except.ok run)).queueAdds.all
        (fun r => decide (r.name = c.name)) = true) ∧
    ((runCheckWithRealTime oe counters c options (Except.ok run)).rtQueueAdds.all
        (fun r => decide (r.name = c.rtName)) = true) ∧
    ((runCheckWithRealTime oe counters c options (Except.ok run)).counterUpdatedFor =
      if options.runStandard then [c.name] else []) ∧
    ((runCheckWithRealTime oe counters c options (Except.ok run)).stores =
      (if options.runStandard then [(c.name, run.standard)] else []) ++
        (if options.runRealTime then [(c.rtName, run.realTime)] else [])) := by
  obtain ⟨rs, rr⟩ := options
  refine ⟨messagesToResults_name_all oe c.name run.standard,
    messagesToResults_name_all oe c.rtName run.realTime, ?_, ?_⟩ <;>
    cases rs <;> cases rr <;> simp [runCheckWithRealTime]

/-- C7: a check invocation that returns an error adds no result to any queue
and stores no last-run output; and the scheduler loop's behaviour does not
depend on run outcomes at all — until the exit channel closes it serves every
event, running the check on exactly the qualifying ticks. -/
theorem c7_check_error_skips_run (me oe : Bool) (counters : List (String × Int)) (c : CheckM)
    (runRT : Bool) (events : List SchedEvent)
    (h : SchedEvent.exitClosed ∉ events) :
    (runCheck me oe counters c (Except.error ())).queueAdds = [] ∧
    (runCheck me oe counters c (Except.error ())).stores = [] ∧
    runnerLoop runRT c events =
      List.replicate (events.countP (eventRuns runRT c)) RunKind.ticked := by
  refine ⟨rfl, rfl, ?_⟩
  induction events with
  | nil => rfl
  | cons e rest ih =>
    have hrest : SchedEvent.exitClosed ∉ rest := fun hx => h (List.mem_cons_of_mem e hx)
    have hloop := ih hrest
    cases e with
    | tick b =>
      by_cases hb : tickShouldRun runRT c b
      · simp only [runnerLoop, hb, if_true, List.countP_cons, eventRuns, hb]
        rw [hloop]
        simp [List.replicate_succ, Nat.add_comm]
      · simp only [runnerLoop, hb, if_false, List.countP_cons, eventRuns]
        rw [hloop]
        simp [hb]
    | intervalUpdate d =>
      simp only [runnerLoop, List.countP_cons, eventRuns]
      rw [hloop]
      simp
    | exitValue =>
      simp only [runnerLoop, List.countP_cons, eventRuns]
      rw [hloop]
      simp
    | exitClosed => exact absurd (List.mem_cons_self _ _) h

/-- Witness for C7: a failing run of the connections check leaves the queue and
the last-output store untouched while a three-event schedule (tick, interval
update, exit value) keeps the loop alive and runs exactly the one tick. -/
theorem c7_witness :
    (SchedEvent.exitClosed ∉
      [SchedEvent.tick true, SchedEvent.intervalUpdate 5, SchedEvent.exitValue]) ∧
    ((runCheck false false [] (CheckM.mk ConnectionsCheckName "" false true)
        (Except.error ())).queueAdds = [] ∧
     (runCheck false false [] (CheckM.mk ConnectionsCheckName "" false true)
        (Except.error ())).stores = [] ∧
     runnerLoop true (CheckM.mk ConnectionsCheckName "" false true)
        [SchedEvent.tick true, SchedEvent.intervalUpdate 5, SchedEvent.exitValue] =
      List.replicate
        ([SchedEvent.tick true, SchedEvent.intervalUpdate 5, SchedEvent.exitValue].countP
          (eventRuns true (CheckM.mk ConnectionsCheckName "" false true)))
        RunKind.ticked) :=
  ⟨by decide,
    c7_check_error_skips_run false false [] (CheckM.mk ConnectionsCheckName "" false true)
      true [SchedEvent.tick true, SchedEvent.intervalUpdate 5, SchedEvent.exitValue]
      (by decide)⟩

theorem runnerLoop_count_priming (runRT : Bool) (c : CheckM) (events : List SchedEvent) :
    (runnerLoop runRT c events).count RunKind.priming = 0 := by
  induction events with
  | nil => rfl
  | cons e rest ih =>
    cases e with
    | tick b =>
      by_cases hb : tickShouldRun runRT c b
      · simp [runnerLoop, hb, List.count_cons, ih]
      · simp [runnerLoop, hb, ih]
    | intervalUpdate d => simpa [runnerLoop] using ih
    | exitValue => simpa [runnerLoop] using ih
    | exitClosed => rfl

/-- C8: for every event sequence, the scheduler of a check with
`RealTime() = false` performs exactly one priming run and performs it before
any timer-driven run (it heads the trace); the scheduler of a check with
`RealTime() = true` performs no priming run. -/
theorem c8_priming_run (runRT : Bool) (c : CheckM) (events : List SchedEvent) :
    ((basicRunnerTrace runRT c events).count RunKind.priming =
      if c.realTime then 0 else 1) ∧
    ((basicRunnerTrace runRT c events).head? = some RunKind.priming ∨ c.realTime = true) := by
  cases hc : c.realTime with
  | true =>
    unfold basicRunnerTrace
    rw [hc]
    exact ⟨by simpa using runnerLoop_count_priming runRT c events, Or.inr rfl⟩
  | false =>
    unfold basicRunnerTrace
    rw [hc]
    refine ⟨?_, Or.inl rfl⟩
    simp [List.count_cons, runnerLoop_count_priming runRT c events]

theorem wrap32_eq_self (x : Int) (h1 : -(2 ^ 31) ≤ x) (h2 : x ≤ 2 ^ 31 - 1) :
    wrap32 x = x := by
  unfold wrap32
  have e1 : (2 : Int) ^ 31 = 2147483648 := by norm_num
  have e2 : (2 : Int) ^ 32 = 4294967296 := by norm_num
  rw [e1, e2]
  rw [e1] at h1 h2
  omega

theorem runCountersAfter_lookup (name : String) :
    ∀ k : Nat, k ≤ 2 ^ 31 - 1 →
      (runCountersAfter name k).lookup name = if k = 0 then none else some (k : Int) := by
  intro k
  induction k with
  | zero => intro _; rfl
  | succ m ih =>
    intro hk
    have hm := ih (by omega)
    have hstep : runCountersAfter name (m + 1) =
        (nextRunCounter (runCountersAfter name m) name).2 := rfl
    rw [hstep]
    unfold nextRunCounter
    rw [hm]
    by_cases hm0 : m = 0
    · subst hm0
      simp [List.lookup]
    · rw [if_neg hm0]
      have hw : wrap32 ((m : Int) + 1) = (m : Int) + 1 := by
        apply wrap32_eq_self
        · omega
        · have : (m : Int) + 1 ≤ 2 ^ 31 - 1 := by
            have e1 : (2 : Int) ^ 31 = 2147483648 := by norm_num
            have e2 : (2 : Nat) ^ 31 = 2147483648 := by norm_num
            rw [e2] at hk
            omega
          exact this
      simp only [hw, List.lookup, beq_self_eq_true]
      rw [if_neg (by omega : ¬m + 1 = 0)]
      norm_num

/-- C9: on its `n`-th run a check's counter value is exactly `n` (for every
realizable counter value), and a check-duration log event is emitted at
counter `n` iff `n ≤ 5` or `n` is a multiple of 20; across 25 runs the logged
runs are exactly 1, 2, 3, 4, 5 and 20. -/
theorem c9_run_counter_log_cadence (name : String) (n : Nat) (h1 : 1 ≤ n)
    (h2 : n ≤ 2 ^ 31 - 1) :
    nthRunCounter name n = (n : Int) ∧
    ((logCheckDuration (n : Int)).isSome = true ↔
      ((n : Int) ≤ 5 ∨ (20 : Int) ∣ (n : Int))) ∧
    (List.range' 1 25).filter (fun k => (logCheckDuration (k : Int)).isSome) =
      [1, 2, 3, 4, 5, 20] := by
  refine ⟨?_, ?_, by decide⟩
  · obtain ⟨m, rfl⟩ : ∃ m, n = m + 1 := ⟨n - 1, by omega⟩
    show (nextRunCounter (runCountersAfter name m) name).1 = _
    unfold nextRunCounter
    rw [runCountersAfter_lookup name m (by omega)]
    by_cases hm0 : m = 0
    · subst hm0
      simp
    · rw [if_neg hm0]
      have hw : wrap32 ((m : Int) + 1) = (m : Int) + 1 := by
        apply wrap32_eq_self
        · omega
        · have e1 : (2 : Int) ^ 31 = 2147483648 := by norm_num
          have e2 : (2 : Nat) ^ 31 = 2147483648 := by norm_num
          rw [e1]
          rw [e2] at h2
          omega
      simp only [hw]
      norm_num
  · unfold logCheckDuration
    by_cases ha : (n : Int) < 5
    · rw [if_pos ha]
      simp only [Option.isSome_some, true_iff]
      left
      omega
    · rw [if_neg ha]
      by_cases hb : (n : Int) = 5
      · rw [if_pos hb]
        simp only [Option.isSome_some, true_iff]
        left
        omega
      · rw [if_neg hb]
        by_cases hq : (n : Int).tmod 20 = 0
        · rw [if_pos hq]
          simp only [Option.isSome_some, true_iff]
          right
          exact Int.dvd_iff_tmod_eq_zero.mpr hq
        · rw [if_neg hq]
          simp only [Option.isSome_none, Bool.false_eq_true, false_iff]
          rintro (hle | hdvd)
          · omega
          · exact hq (Int.dvd_iff_tmod_eq_zero.mp hdvd)

/-- Witness for C9 at `n = 7`: counter 7 on the seventh run, no log emitted,
and the 25-run cadence list. -/
theorem c9_witness :
    (1 ≤ 7 ∧ 7 ≤ 2 ^ 31 - 1) ∧
    (nthRunCounter ProcessCheckName 7 = ((7 : Nat) : Int) ∧
     ((logCheckDuration ((7 : Nat) : Int)).isSome = true ↔
       (((7 : Nat) : Int) ≤ 5 ∨ (20 : Int) ∣ ((7 : Nat) : Int))) ∧
     (List.range' 1 25).filter (fun k => (logCheckDuration (k : Int)).isSome) =
       [1, 2, 3, 4, 5, 20]) :=
  ⟨⟨by decide, by decide⟩,
    c9_run_counter_log_cadence ProcessCheckName 7 (by decide) (by decide)⟩

theorem messagesToResults_zero_len (oe : Bool) (nm : String) (msgs : List MsgBody)
    (h : msgs.length = 0) : messagesToResults oe nm msgs = none := by
  unfold messagesToResults
  rw [if_pos h]

theorem messagesToResults_pos_len (oe : Bool) (nm : String) (msgs : List MsgBody)
    (h : ¬msgs.length = 0) :
    messagesToResults oe nm msgs =
      some { name := nm, payloads := msgs.filterMap (encodeMessage oe),
             sizeInBytes := ((msgs.filterMap (encodeMessage oe)).map
               (fun p => (p.body.length : Int))).sum } := by
  unfold messagesToResults
  rw [if_neg h]

/-- C10: for a successful pod-check run producing messages `m`, with manifest
collection disabled exactly the first `⌊len(m)/2⌋` messages are encoded and
queued; with manifest collection enabled (and at least two messages) the
remaining messages are queued as a second, separate result on the same
queue. -/
theorem c10_pod_check_halves (me oe : Bool) (counters : List (String × Int)) (c : CheckM)
    (m : List MsgBody) (hname : c.name = PodCheckName) :
    (me = false →
      ((runCheck me oe counters c (Except.ok m)).queueAdds.map
        (fun r => r.payloads)).flatten =
        (m.take (m.length / 2)).filterMap (encodeMessage oe)) ∧
    (me = true → 2 ≤ m.length →
      (runCheck me oe counters c (Except.ok m)).queueAdds.map (fun r => r.payloads) =
        [(m.take (m.length / 2)).filterMap (encodeMessage oe),
         (m.drop (m.length / 2)).filterMap (encodeMessage oe)]) := by
  have hq : (runCheck me oe counters c (Except.ok m)).queueAdds =
      handlePodChecks me oe c.name m := by
    simp [runCheck, hname]
  rw [hq]
  unfold handlePodChecks
  have htake : (m.take (m.length / 2)).length = m.length / 2 := by
    rw [List.length_take]
    omega
  constructor
  · rintro rfl
    simp only [Bool.false_eq_true, if_false, List.append_nil]
    by_cases hf : (m.take (m.length / 2)).length = 0
    · rw [messagesToResults_zero_len oe c.name _ hf]
      have : m.take (m.length / 2) = [] := List.length_eq_zero.mp hf
      rw [this]
      rfl
    · rw [messagesToResults_pos_len oe c.name _ hf]
      simp
  · rintro rfl hlen
    simp only [if_true]
    have hf : ¬(m.take (m.length / 2)).length = 0 := by omega
    have hs : ¬(m.drop (m.length / 2)).length = 0 := by
      rw [List.length_drop]
      omega
    rw [messagesToResults_pos_len oe c.name _ hf,
      messagesToResults_pos_len oe c.name _ hs]
    rfl

/-- Witness for C10: a two-message pod run with manifest collection enabled
yields two separate queued results, one per half. -/
theorem c10_witness :
    ((CheckM.mk PodCheckName "" false true).name = PodCheckName ∧
      2 ≤ ([MsgBody.mk "a" (some "a") false, MsgBody.mk "b" (some "b") true] :
        List MsgBody).length) ∧
    (runCheck true false [] (CheckM.mk PodCheckName "" false true)
        (Except.ok [MsgBody.mk "a" (some "a") false,
          MsgBody.mk "b" (some "b") true])).queueAdds.map (fun r => r.payloads) =
      [(([MsgBody.mk "a" (some "a") false, MsgBody.mk "b" (some "b") true] :
          List MsgBody).take
            (([MsgBody.mk "a" (some "a") false, MsgBody.mk "b" (some "b") true] :
              List MsgBody).length / 2)).filterMap (encodeMessage false),
       (([MsgBody.mk "a" (some "a") false, MsgBody.mk "b" (some "b") true] :
          List MsgBody).drop
            (([MsgBody.mk "a" (some "a") false, MsgBody.mk "b" (some "b") true] :
              List MsgBody).length / 2)).filterMap (encodeMessage false)] :=
  ⟨⟨rfl, by decide⟩,
    (c10_pod_check_halves true false [] (CheckM.mk PodCheckName "" false true)
      [MsgBody.mk "a" (some "a") false, MsgBody.mk "b" (some "b") true] rfl).2
      rfl (by decide)⟩
